import Mathlib

/-!
Shallow embedding of the `nebula.asyncevent` reactor (pynebula).

The definitions below are translated from the Python sources:

* `src/nebula/asyncevent/_asyncevent.py` — the `AsyncEvent` reactor
  (registration, the timer queues, `__loop_step`, `__process_fired_events`,
  `__update_associated_events`);
* `src/nebula/asyncevent/_base_dispatcher.py` — the `Dispatcher` and
  `ScheduledJob` handler contracts;
* `src/nebula/asyncevent/_socket_dispatcher.py` — `TcpClientDispatcher` and
  `TcpServerDispatcher`.

Modelling conventions:

* Time instants (Python floats of seconds since the epoch) are modelled as
  `Int`; only comparisons, subtraction, `min` and truthiness of the values
  matter to the reactor logic.  Python truthiness of a timeout value
  (`None` and `0` falsy, everything else truthy) is `truthy` below.
* Python dicts keyed by file descriptor are association lists
  `List (Nat × β)` with dict semantics (`dictGet`, `dictSet`, `dictRemove`);
  `dictSet` keeps the position of an existing key and appends a fresh one,
  matching dict insertion order.
* A `Dispatcher` is represented by the values its capability predicates
  (`monitor_readable`, `monitor_writable`, `monitor_timeout`) return at the
  moment the reactor queries them (`Disp`); event callbacks are arbitrary
  state transformers supplied as parameters, and they are total — the
  `try/except` routing of callback exceptions to `handle_error` is outside
  the scope of the claims proved here.
* The epoll backend's native bits are used for event masks
  (`EPOLLIN = 1`, `EPOLLPRI = 2`, `EPOLLOUT = 4`, `EPOLLERR = 8`,
  `EPOLLHUP = 16`), matching `AsyncEvent.__event_api_init(API_EPOLL)`.
* Operations that in Python raise `KeyError`/`IOError` on a missing dict key
  (for example `__update_associated_events` reading
  `self._monitored_events[fd]`, or `epoll.modify` on an unknown fd) are
  modelled with `Option`: `none` is the raised-and-propagating exception.
-/

namespace Nebula

/-- epoll input-readiness bit (`select.EPOLLIN`). -/
def EPOLLIN : Nat := 1

/-- epoll priority/out-of-band bit (`select.EPOLLPRI`). -/
def EPOLLPRI : Nat := 2

/-- epoll output-readiness bit (`select.EPOLLOUT`). -/
def EPOLLOUT : Nat := 4

/-- epoll error bit (`select.EPOLLERR`). -/
def EPOLLERR : Nat := 8

/-- epoll hangup bit (`select.EPOLLHUP`). -/
def EPOLLHUP : Nat := 16

/-- errno `ENOENT`. -/
def ENOENT : Nat := 2

/-- errno `EEXIST`. -/
def EEXIST : Nat := 17

/-- errno `EAGAIN` (same value as `EWOULDBLOCK` on Linux). -/
def EAGAIN : Nat := 11

/-- errno `EWOULDBLOCK`. -/
def EWOULDBLOCK : Nat := 11

/-- errno `ECONNABORTED`. -/
def ECONNABORTED : Nat := 103

/-- The answers a `Dispatcher`'s capability predicates give when the reactor
queries them: `monitor_readable()`, `monitor_writable()` and
`monitor_timeout()` (`_base_dispatcher.py`).  `timeout = none` models a
Python `None` return, `some t` a float return `t`. -/
structure Disp where
  wantRead : Bool
  wantWrite : Bool
  timeout : Option Int
deriving DecidableEq

/-- A `ScheduledJob` (`_base_dispatcher.py`): `jid` is the object identity,
`schedule` the value its `schedule()` query returns. -/
structure Job where
  jid : Nat
  schedule : Option Int
deriving DecidableEq

/-- Python truthiness of a timeout/schedule value: `None` and `0` are falsy,
any other number is truthy.  Used by `register` (`if timeout:`),
`add_scheduled_job` (`if timeout:`) and `__update_associated_events`. -/
def truthy : Option Int → Bool
  | none => false
  | some t => t != 0

/-- Dict lookup (`d[k]` / `k in d`): first entry with the given key. -/
def dictGet {β : Type} : List (Nat × β) → Nat → Option β
  | [], _ => none
  | p :: rest, k => if p.1 = k then some p.2 else dictGet rest k

/-- Dict assignment `d[k] = v`: overwrite in place if the key is present
(keeping its position), append otherwise (dict insertion order). -/
def dictSet {β : Type} (l : List (Nat × β)) (k : Nat) (v : β) : List (Nat × β) :=
  if (dictGet l k).isSome then
    l.map (fun p => if p.1 = k then (k, v) else p)
  else
    l ++ [(k, v)]

/-- Dict deletion `del d[k]`: removes the (unique) entry with the key. -/
def dictRemove {β : Type} : List (Nat × β) → Nat → List (Nat × β)
  | [], _ => []
  | p :: rest, k => if p.1 = k then rest else p :: dictRemove rest k

/-- `AsyncEvent.__remove_timeout_fd`: delete the first `(timeout, fd)` entry
with the given fd from `_fds_with_timeout` (the code breaks after the first
match, assuming no duplicates). -/
def removeTimeoutFd : List (Int × Nat) → Nat → List (Int × Nat)
  | [], _ => []
  | p :: rest, fd => if p.2 = fd then rest else p :: removeTimeoutFd rest fd

/-- The reactor state: the four collections of `AsyncEvent` plus a mirror of
the multiplexer's watched set (`self._pollster`, fd ↦ mask) and the
construction-time `raise_exceptions` flag. -/
structure RState where
  dispatchers : List (Nat × Disp)
  monitoredEvents : List (Nat × Nat)
  fdsWithTimeout : List (Int × Nat)
  timeEvents : List (Int × Job)
  pollster : List (Nat × Nat)
  raiseExceptions : Bool
deriving DecidableEq

/-- The interest mask `AsyncEvent.register` / `__update_associated_events`
derive from a dispatcher's predicates: `IN|PRI` when readable (the epoll
backend has distinct IN and PRI masks), `OUT` when writable. -/
def interestMask (d : Disp) : Nat :=
  (if d.wantRead then EPOLLIN ||| EPOLLPRI else 0) |||
    (if d.wantWrite then EPOLLOUT else 0)

/-- Outcome of `AsyncEvent.register` / `unregister`: returned `True`,
returned `False`, or raised `IOError(errno)`. -/
inductive Outcome where
  | ok : Outcome
  | returnedFalse : Outcome
  | raised : Nat → Outcome
deriving DecidableEq

/-- `AsyncEvent.register(disp_obj)` for a dispatcher with descriptor `fd`
whose predicates answer `d`.  On a fresh fd: registers with the multiplexer,
records `_registered_dispatchers[fd]` and `_monitored_events[fd]`, and
appends `(timeout, fd)` to `_fds_with_timeout` iff the queried timeout is
truthy.  On an already registered fd: returns `False` or raises
`IOError(EEXIST)` depending on `raise_exceptions`, mutating nothing. -/
def register (s : RState) (fd : Nat) (d : Disp) : Outcome × RState :=
  match dictGet s.dispatchers fd with
  | none =>
    let flags := interestMask d
    let s1 : RState :=
      { s with
        pollster := dictSet s.pollster fd flags,
        dispatchers := dictSet s.dispatchers fd d,
        monitoredEvents := dictSet s.monitoredEvents fd flags }
    let s2 : RState :=
      if truthy d.timeout then
        { s1 with fdsWithTimeout := s1.fdsWithTimeout ++ [(d.timeout.getD 0, fd)] }
      else
        s1
    (Outcome.ok, s2)
  | some _ =>
    if s.raiseExceptions then (Outcome.raised EEXIST, s) else (Outcome.returnedFalse, s)

/-- `AsyncEvent.unregister(disp_obj)`: on a registered fd removes it from all
four collections and from the multiplexer; otherwise returns `False` or
raises `IOError(ENOENT)` depending on `raise_exceptions`. -/
def unregister (s : RState) (fd : Nat) : Outcome × RState :=
  match dictGet s.dispatchers fd with
  | some _ =>
    (Outcome.ok,
      { s with
        dispatchers := dictRemove s.dispatchers fd,
        monitoredEvents := dictRemove s.monitoredEvents fd,
        fdsWithTimeout := removeTimeoutFd s.fdsWithTimeout fd,
        pollster := dictRemove s.pollster fd })
  | none =>
    if s.raiseExceptions then (Outcome.raised ENOENT, s) else (Outcome.returnedFalse, s)

/-- `AsyncEvent.add_scheduled_job(job_obj)`: queries `schedule()`; appends
`(timeout, job)` to `_time_events` and returns `True` iff the answer is
truthy, else returns `False` without mutating. -/
def addScheduledJob (s : RState) (j : Job) : Bool × RState :=
  if truthy j.schedule then
    (true, { s with timeEvents := s.timeEvents ++ [(j.schedule.getD 0, j)] })
  else
    (false, s)

/-- Result of `EventMultiplexer.modify(fd, mask)` (`epoll.modify` /
`_SelectApiWrapper.modify`): raises (`none`) if the fd is not watched,
otherwise records the new mask. -/
def pollsterModify (ps : List (Nat × Nat)) (fd flags : Nat) : Option (List (Nat × Nat)) :=
  if (dictGet ps fd).isSome then some (dictSet ps fd flags) else none

/-- `AsyncEvent.__update_associated_events(fd)`.  Early-returns when the fd is
no longer registered; otherwise removes the stale `_fds_with_timeout` entry,
re-derives the interest mask from the dispatcher's current predicates, calls
the multiplexer's `modify` only when the mask changed (recording the new
mask), and re-appends a timeout entry iff the re-queried timeout is truthy.
The second component lists the `modify(fd, mask)` calls issued; `none`
models the `KeyError`/`IOError` a missing `_monitored_events`/multiplexer
entry would raise. -/
def updateAssociatedEvents (s : RState) (fd : Nat) : Option (RState × List (Nat × Nat)) :=
  match dictGet s.dispatchers fd with
  | none => some (s, [])
  | some d =>
    let s1 : RState := { s with fdsWithTimeout := removeTimeoutFd s.fdsWithTimeout fd }
    let flags := interestMask d
    match dictGet s1.monitoredEvents fd with
    | none => none
    | some recFlags =>
      match
        (if recFlags ≠ flags then
          match pollsterModify s1.pollster fd flags with
          | none => none
          | some ps =>
            some ({ s1 with
                      pollster := ps,
                      monitoredEvents := dictSet s1.monitoredEvents fd flags },
                  [(fd, flags)])
        else
          some (s1, ([] : List (Nat × Nat))))
      with
      | none => none
      | some (s2, calls) =>
        if truthy d.timeout then
          some ({ s2 with fdsWithTimeout := s2.fdsWithTimeout ++ [(d.timeout.getD 0, fd)] },
                calls)
        else
          some (s2, calls)

/-- The four event classes `__process_fired_events` resolves, in its fixed
priority order. -/
inductive EvKind where
  | pri : EvKind
  | rd : EvKind
  | wr : EvKind
  | cls : EvKind
deriving DecidableEq

/-- The event-mask bit(s) that fire each event class in
`__process_fired_events` (`cls` is the combined `HUP | ERR` mask). -/
def evBit : EvKind → Nat
  | EvKind.pri => EPOLLPRI
  | EvKind.rd => EPOLLIN
  | EvKind.wr => EPOLLOUT
  | EvKind.cls => EPOLLHUP ||| EPOLLERR

/-- One recorded callback invocation: which dispatcher callback was invoked
(`handle_expt_event` / `handle_read_event` / `handle_write_event` /
`handle_close`), for which fd, and the reactor state at the moment of the
call. -/
structure Invocation where
  fd : Nat
  ev : EvKind
  stAt : RState
deriving DecidableEq

/-- Dispatcher event callbacks, modelled as arbitrary total state
transformers keyed by fd and event class. -/
def CB : Type := Nat → EvKind → RState → RState

/-- `AsyncEvent.__process_fired_events(fd, flags)`.  The entry
`self._registered_dispatchers[fd]` raises `KeyError` (`none`) if the fd is
not registered; after that the four event classes are checked sequentially
— PRI (only because the epoll PRI and IN masks differ), IN, OUT, then
HUP|ERR — each invocation guarded by a fresh `fd in
self._registered_dispatchers` check on the state the previous callbacks
left behind.  Returns the final state and the invocations performed. -/
def processFiredEvents (cb : CB) (fd flags : Nat) (s : RState) :
    Option (RState × List Invocation) :=
  if (dictGet s.dispatchers fd).isSome then
    let p1 : RState × List Invocation :=
      if ((EPOLLPRI != EPOLLIN) && (flags &&& EPOLLPRI != 0)
          && (dictGet s.dispatchers fd).isSome) then
        (cb fd EvKind.pri s, [⟨fd, EvKind.pri, s⟩])
      else (s, [])
    let p2 : RState × List Invocation :=
      if ((flags &&& EPOLLIN != 0) && (dictGet p1.1.dispatchers fd).isSome) then
        (cb fd EvKind.rd p1.1, p1.2 ++ [⟨fd, EvKind.rd, p1.1⟩])
      else p1
    let p3 : RState × List Invocation :=
      if ((flags &&& EPOLLOUT != 0) && (dictGet p2.1.dispatchers fd).isSome) then
        (cb fd EvKind.wr p2.1, p2.2 ++ [⟨fd, EvKind.wr, p2.1⟩])
      else p2
    let p4 : RState × List Invocation :=
      if ((flags &&& (EPOLLHUP ||| EPOLLERR) != 0)
          && (dictGet p3.1.dispatchers fd).isSome) then
        (cb fd EvKind.cls p3.1, p3.2 ++ [⟨fd, EvKind.cls, p3.1⟩])
      else p3
    some p4
  else none

/-- The ready-pairs branch of `AsyncEvent.__loop_step`: for each `(fd,
flags)` pair returned by `poll`, in order, run `__process_fired_events` and
then `__update_associated_events`.  `none` models a propagating
`KeyError`. -/
def processBatch (cb : CB) : List (Nat × Nat) → RState → Option (RState × List Invocation)
  | [], s => some (s, [])
  | (fd, flags) :: rest, s =>
    match processFiredEvents cb fd flags s with
    | none => none
    | some (s1, tr1) =>
      match updateAssociatedEvents s1 fd with
      | none => none
      | some (s2, _) =>
        match processBatch cb rest s2 with
        | none => none
        | some (s3, tr3) => some (s3, tr1 ++ tr3)

/-- Modelled from the spec (step 3 of the loop): resolve the events of one
ready pair in the fixed priority order PRI, IN, OUT, HUP-or-ERR, invoking
the callback for each set bit and re-checking registration before every
single invocation. -/
def specDispatchFd (cb : CB) (fd flags : Nat) (s : RState) : RState × List Invocation :=
  [EvKind.pri, EvKind.rd, EvKind.wr, EvKind.cls].foldl
    (fun acc ev =>
      if ((flags &&& evBit ev != 0) && (dictGet acc.1.dispatchers fd).isSome) then
        (cb fd ev acc.1, acc.2 ++ [⟨fd, ev, acc.1⟩])
      else acc)
    (s, [])

/-- Modelled from the spec (step 3 of the loop): process the ready pairs in
the order returned, dispatching each via `specDispatchFd` and then
refreshing the surviving dispatcher's interest and timeout. -/
def specBatch (cb : CB) : List (Nat × Nat) → RState → Option (RState × List Invocation)
  | [], s => some (s, [])
  | (fd, flags) :: rest, s =>
    let p := specDispatchFd cb fd flags s
    match updateAssociatedEvents p.1 fd with
    | none => none
    | some (s2, _) =>
      match specBatch cb rest s2 with
      | none => none
      | some (s3, tr3) => some (s3, p.2 ++ tr3)

/-- Stable insertion of one entry into a list sorted ascending by the first
component: the entry goes before the first strictly greater key, after equal
keys, so `pySorted` reproduces Python's stable `sorted(key = item[0])`. -/
def insSorted {α : Type} (p : Int × α) : List (Int × α) → List (Int × α)
  | [] => [p]
  | q :: rest => if q.1 < p.1 then q :: insSorted p rest else p :: q :: rest

/-- Python's stable `sorted(lst, key = lambda item: item[0])`, used by
`AsyncEvent.__sort_timeout_fds` and `__sort_time_events`. -/
def pySorted {α : Type} (l : List (Int × α)) : List (Int × α) :=
  l.foldr insSorted []

/-- Minimum of the first components of a list, `none` when empty. -/
def minFst {α : Type} : List (Int × α) → Option Int
  | [] => none
  | p :: rest =>
    match minFst rest with
    | none => some p.1
    | some m => some (min p.1 m)

/-- The repeated block in the head of `AsyncEvent.__loop_step`: fold one
queue's earliest instant into the running nearest timeout (`nt <= 0` means
already due, so poll with zero timeout; otherwise keep the smaller positive
delta; `-1` means no timer seen yet, i.e. block indefinitely). -/
def stepNearest (nearest : Int) (instant : Int) (now : Int) : Int :=
  let nt := instant - now
  if nt ≤ 0 then 0
  else if nearest < 0 ∨ nt < nearest then nt
  else nearest

/-- The poll-timeout computation at the head of `AsyncEvent.__loop_step`:
starts from `-1` (block indefinitely), sorts each non-empty queue and folds
in its head instant.  The result is the value handed to `poll`. -/
def nearestTimeout (fdsT : List (Int × Nat)) (jobs : List (Int × Job)) (now : Int) : Int :=
  let n1 : Int :=
    match pySorted fdsT with
    | [] => -1
    | p :: _ => stepNearest (-1) p.1 now
  match pySorted jobs with
  | [] => n1
  | p :: _ => stepNearest n1 p.1 now

/-- Modelled from the spec (step 1 of the loop): `nearest = min(earliest
fd_timeout, earliest job instant)` relative to now, with values `<= 0`
clamped to a zero poll timeout and `-1` (block indefinitely) when no timer
exists. -/
def specNearest (fdsT : List (Int × Nat)) (jobs : List (Int × Job)) (now : Int) : Int :=
  match minFst fdsT, minFst jobs with
  | none, none => -1
  | some a, none => max 0 (a - now)
  | none, some b => max 0 (b - now)
  | some a, some b => max 0 (min a b - now)

/-- The fd-timeout branch of the pure-timeout path of
`AsyncEvent.__loop_step`, i.e. the Python loop

`for (timeout, fd) in self._fds_with_timeout: if timeout > now: break;
del self._fds_with_timeout[0]; ...[fd].handle_timeout_event(self);
self.__update_associated_events(fd)`.

Python's list iterator keeps a cursor `i` into the list object while the
body deletes index `0` and `__update_associated_events` may append, so the
cursor is modelled explicitly.  `cbT fd` is the effect of
`handle_timeout_event`; the dispatcher lookup raises `KeyError` (`none`) if
the fd is no longer registered.  `fuel` bounds the number of iterations
(callbacks may grow the list, so the Python loop need not terminate);
every theorem below supplies enough fuel for its input.  Returns the final
state and the fds whose timeout callback fired. -/
def timeoutPhaseAux (cbT : Nat → RState → RState) (now : Int) :
    Nat → Nat → RState → List Nat → Option (RState × List Nat)
  | 0, _, _, _ => none
  | fuel + 1, i, s, fired =>
    if h : i < s.fdsWithTimeout.length then
      let p := s.fdsWithTimeout.get ⟨i, h⟩
      if p.1 > now then some (s, fired)
      else
        let s1 : RState := { s with fdsWithTimeout := s.fdsWithTimeout.drop 1 }
        match dictGet s1.dispatchers p.2 with
        | none => none
        | some _ =>
          let s2 := cbT p.2 s1
          match updateAssociatedEvents s2 p.2 with
          | none => none
          | some (s3, _) => timeoutPhaseAux cbT now fuel (i + 1) s3 (fired ++ [p.2])
    else some (s, fired)

/-- The fd-timeout loop of the pure-timeout path, started on the (already
sorted) `_fds_with_timeout` list with the iterator cursor at `0`. -/
def timeoutPhase (cbT : Nat → RState → RState) (now : Int) (fuel : Nat) (s : RState) :
    Option (RState × List Nat) :=
  timeoutPhaseAux cbT now fuel 0 s []

/-- The scheduled-jobs loop of the pure-timeout path of
`AsyncEvent.__loop_step`:

`for (timeout, job_obj) in self._time_events: if timeout > now: break;
del self._time_events[0]; job_obj.handle_job_event(self);
new_timeout = job_obj.schedule(); if new_timeout: append`.

Same explicit-cursor modelling as `timeoutPhaseAux`; `handle_job_event` has
no reactor-visible effect here and the re-queried `schedule()` answers
`j.schedule` again.  Returns the final `_time_events` list and the jobs
fired, `none` on fuel exhaustion. -/
def jobsPhaseAux (now : Int) :
    Nat → Nat → List (Int × Job) → List Job → Option (List (Int × Job) × List Job)
  | 0, _, _, _ => none
  | fuel + 1, i, evs, fired =>
    if h : i < evs.length then
      let p := evs.get ⟨i, h⟩
      if p.1 > now then some (evs, fired)
      else
        let evs1 := evs.drop 1
        let evs2 :=
          if truthy p.2.schedule then evs1 ++ [(p.2.schedule.getD 0, p.2)] else evs1
        jobsPhaseAux now fuel (i + 1) evs2 (fired ++ [p.2])
    else some (evs, fired)

/-- The scheduled-jobs loop started with the iterator cursor at `0`. -/
def jobsPhase (now : Int) (fuel : Nat) (evs : List (Int × Job)) :
    Option (List (Int × Job) × List Job) :=
  jobsPhaseAux now fuel 0 evs []

/-- `TcpClientDispatcher` state: `connected` (`self.__connected`),
`connectTimeoutAt` (`self.__connect_timeout_at`), the recorded local
address, and the answers the user-overridable `readable()` / `writable()` /
`timeout()` predicates would give. -/
structure TcpClientState where
  connected : Bool
  connectTimeoutAt : Option Int
  localAddr : Option Nat
  userReadable : Bool
  userWritable : Bool
  userTimeout : Option Int
deriving DecidableEq

/-- `TcpClientDispatcher.monitor_readable` (with the default
`call_user_func = True`): forced `False` while not connected, else the user
`readable()`. -/
def TcpClientState.monitorReadable (c : TcpClientState) : Bool :=
  if !c.connected then false else c.userReadable

/-- `TcpClientDispatcher.monitor_writable`: forced `True` while not
connected, else the user `writable()`. -/
def TcpClientState.monitorWritable (c : TcpClientState) : Bool :=
  if !c.connected then true else c.userWritable

/-- `TcpClientDispatcher.monitor_timeout`: the recorded connect deadline
while not connected, else the user `timeout()`. -/
def TcpClientState.monitorTimeout (c : TcpClientState) : Option Int :=
  if !c.connected then c.connectTimeoutAt else c.userTimeout

/-- `TcpClientDispatcher.handle_write_event` (default `call_user_func`).
`soError` is the pending `SO_ERROR` read from the socket and `sockName` the
`getsockname()` answer.  Not connected: a nonzero pending error is raised as
`socket.error(soError)` before any state change; a zero error transitions to
connected, records the local address, and does not call the user's
`handle_write`.  Connected: the user's `handle_write` runs (the Bool
reports whether it was invoked). -/
def TcpClientState.handleWriteEvent (c : TcpClientState) (soError : Int) (sockName : Nat) :
    Except Int (TcpClientState × Bool) :=
  if !c.connected then
    if soError ≠ 0 then Except.error soError
    else Except.ok ({ c with connected := true, localAddr := some sockName }, false)
  else Except.ok (c, true)

/-- What the underlying `self._sock.accept()` call did, as seen by
`TcpServerDispatcher.accept`. -/
inductive RawAccept where
  | conn : Nat → Nat → RawAccept
  | sockErr : Nat → RawAccept
  | typeErr : RawAccept
deriving DecidableEq

/-- What `TcpServerDispatcher.accept` does in response. -/
inductive AcceptOutcome where
  | newClient : Nat → Nat → AcceptOutcome
  | noClient : AcceptOutcome
  | raisedNameError : AcceptOutcome
deriving DecidableEq

/-- `TcpServerDispatcher.accept()`.  A successful accept returns the
connected socket and peer address; `TypeError` and the transient errnos
`EWOULDBLOCK`, `EAGAIN`, `ECONNABORTED` yield `None` (no client); any other
socket error reaches `self.log_warning("...".format(e))`, whose argument is
evaluated first and raises `NameError` (the name `e` is unbound in that
handler — the exception was bound as `why`), so the `raise` statement on the
next line is never reached and a `NameError`, not the socket error,
propagates. -/
def tcpServerAccept (r : RawAccept) : AcceptOutcome :=
  match r with
  | RawAccept.conn sockFd addr => AcceptOutcome.newClient sockFd addr
  | RawAccept.typeErr => AcceptOutcome.noClient
  | RawAccept.sockErr code =>
    if code = EWOULDBLOCK ∨ code = EAGAIN ∨ code = ECONNABORTED then
      AcceptOutcome.noClient
    else
      AcceptOutcome.raisedNameError

/-- `TcpServerDispatcher.handle_read`: calls `accept()` and, when it
returned a new client, hands the socket and peer address to
`prepare_serving_client`; `Except.error ()` models the exception from
`accept` propagating to the caller. -/
def tcpServerHandleRead (r : RawAccept) : Except Unit (Option (Nat × Nat)) :=
  match tcpServerAccept r with
  | AcceptOutcome.newClient sockFd addr => Except.ok (some (sockFd, addr))
  | AcceptOutcome.noClient => Except.ok none
  | AcceptOutcome.raisedNameError => Except.error ()

/-- Keys of an association list. -/
def keysOf {β : Type} (l : List (Nat × β)) : List Nat := l.map Prod.fst

theorem dictGet_eq_none_iff {β : Type} (l : List (Nat × β)) (k : Nat) :
    dictGet l k = none ↔ ∀ p ∈ l, p.1 ≠ k := by
  induction l with
  | nil => simp [dictGet]
  | cons p rest ih =>
    by_cases hp : p.1 = k
    · simp [dictGet, hp]
    · simp [dictGet, hp, ih]

theorem dictGet_append {β : Type} (l1 l2 : List (Nat × β)) (k : Nat) :
    dictGet (l1 ++ l2) k = (dictGet l1 k).orElse (fun _ => dictGet l2 k) := by
  induction l1 with
  | nil => simp [dictGet]
  | cons p rest ih =>
    by_cases hp : p.1 = k
    · simp [dictGet, hp]
    · simp [dictGet, hp, ih]

theorem dictSet_fresh {β : Type} (l : List (Nat × β)) (k : Nat) (v : β)
    (h : dictGet l k = none) : dictSet l k v = l ++ [(k, v)] := by
  unfold dictSet
  rw [h]
  rfl

theorem dictGet_dictSet_self {β : Type} (l : List (Nat × β)) (k : Nat) (v : β) :
    dictGet (dictSet l k v) k = some v := by
  unfold dictSet
  by_cases h : (dictGet l k).isSome
  · rw [if_pos h]
    induction l with
    | nil => simp [dictGet] at h
    | cons p rest ih =>
      by_cases hp : p.1 = k
      · simp [dictGet, hp]
      · rw [dictGet, if_neg hp] at h
        simpa [dictGet, hp] using ih h
  · rw [if_neg h]
    rw [Option.not_isSome_iff_eq_none] at h
    rw [dictGet_append, h]
    simp [dictGet]

theorem dictGet_mapSet_ne {β : Type} (l : List (Nat × β)) (k k' : Nat) (v : β)
    (hne : k' ≠ k) :
    dictGet (l.map (fun p => if p.1 = k then (k, v) else p)) k' = dictGet l k' := by
  induction l with
  | nil => rfl
  | cons p rest ih =>
    by_cases hp : p.1 = k
    · rw [List.map_cons, if_pos hp, dictGet, if_neg (Ne.symm hne), dictGet,
        if_neg (by rw [hp]; exact fun hkk => hne hkk.symm)]
      exact ih
    · by_cases hp' : p.1 = k'
      · rw [List.map_cons, if_neg hp, dictGet, if_pos hp', dictGet, if_pos hp']
      · rw [List.map_cons, if_neg hp, dictGet, if_neg hp', dictGet, if_neg hp']
        exact ih

theorem dictGet_dictSet_ne {β : Type} (l : List (Nat × β)) (k k' : Nat) (v : β)
    (hne : k' ≠ k) : dictGet (dictSet l k v) k' = dictGet l k' := by
  unfold dictSet
  by_cases h : (dictGet l k).isSome
  · rw [if_pos h]
    exact dictGet_mapSet_ne l k k' v hne
  · rw [if_neg h]
    rw [dictGet_append]
    cases hg : dictGet l k' with
    | some w => simp
    | none => simp [dictGet, Ne.symm hne]

theorem dictGet_dictRemove_ne {β : Type} (l : List (Nat × β)) (k k' : Nat)
    (hne : k' ≠ k) : dictGet (dictRemove l k) k' = dictGet l k' := by
  induction l with
  | nil => rfl
  | cons p rest ih =>
    by_cases hp : p.1 = k
    · rw [dictRemove, if_pos hp, dictGet, if_neg (by rw [hp]; exact Ne.symm hne)]
    · by_cases hp' : p.1 = k'
      · rw [dictRemove, if_neg hp, dictGet, if_pos hp', dictGet, if_pos hp']
      · rw [dictRemove, if_neg hp, dictGet, if_neg hp', dictGet, if_neg hp']
        exact ih

theorem keysOf_dictRemove_sublist {β : Type} (l : List (Nat × β)) (k : Nat) :
    (keysOf (dictRemove l k)).Sublist (keysOf l) := by
  induction l with
  | nil => simp [dictRemove, keysOf]
  | cons p rest ih =>
    by_cases hp : p.1 = k
    · rw [dictRemove, if_pos hp]
      simp only [keysOf, List.map_cons]
      exact List.sublist_cons_self p.1 (List.map Prod.fst rest)
    · rw [dictRemove, if_neg hp]
      simpa [keysOf] using ih.cons₂ p.1

theorem dictGet_dictRemove_self {β : Type} (l : List (Nat × β)) (k : Nat)
    (hnd : (keysOf l).Nodup) : dictGet (dictRemove l k) k = none := by
  induction l with
  | nil => rfl
  | cons p rest ih =>
    rw [keysOf, List.map_cons, List.nodup_cons] at hnd
    by_cases hp : p.1 = k
    · rw [dictRemove, if_pos hp, dictGet_eq_none_iff]
      intro q hq hqk
      exact hnd.1 (by rw [hp, ← hqk]; exact List.mem_map_of_mem Prod.fst hq)
    · rw [dictRemove, if_neg hp, dictGet, if_neg hp]
      exact ih hnd.2

theorem dictGet_append_single_ne {β : Type} (l : List (Nat × β)) (k k' : Nat) (v : β)
    (hne : k' ≠ k) : dictGet (l ++ [(k, v)]) k' = dictGet l k' := by
  induction l with
  | nil => simp [dictGet, Ne.symm hne]
  | cons p rest ih =>
    by_cases hp : p.1 = k'
    · simp [dictGet, hp]
    · simp [dictGet, hp, ih]

theorem dictGet_append_single_self {β : Type} (l : List (Nat × β)) (k : Nat) (v : β)
    (h : dictGet l k = none) : dictGet (l ++ [(k, v)]) k = some v := by
  induction l with
  | nil => simp [dictGet]
  | cons p rest ih =>
    rw [dictGet] at h
    by_cases hp : p.1 = k
    · rw [if_pos hp] at h
      exact Option.noConfusion h
    · rw [if_neg hp] at h
      simp [dictGet, hp, ih h]

theorem nodup_append_singleton {α : Type} (l : List α) (x : α)
    (hl : l.Nodup) (hx : x ∉ l) : (l ++ [x]).Nodup := by
  induction l with
  | nil => simp
  | cons a rest ih =>
    rw [List.nodup_cons] at hl
    rw [List.cons_append, List.nodup_cons]
    refine ⟨?_, ih hl.2 (fun h => hx (List.mem_cons_of_mem a h))⟩
    intro hmem
    rw [List.mem_append] at hmem
    rcases hmem with h | h
    · exact hl.1 h
    · rw [List.mem_singleton] at h
      exact hx (by rw [← h]; exact List.mem_cons_self a rest)

theorem removeTimeoutFd_sublist (l : List (Int × Nat)) (fd : Nat) :
    (removeTimeoutFd l fd).Sublist l := by
  induction l with
  | nil => simp [removeTimeoutFd]
  | cons p rest ih =>
    by_cases hp : p.2 = fd
    · rw [removeTimeoutFd, if_pos hp]
      exact List.sublist_cons_self p rest
    · rw [removeTimeoutFd, if_neg hp]
      exact ih.cons₂ p

theorem mem_map_snd_removeTimeoutFd_ne (l : List (Int × Nat)) (fd fd' : Nat)
    (hne : fd' ≠ fd) :
    fd' ∈ (removeTimeoutFd l fd).map Prod.snd ↔ fd' ∈ l.map Prod.snd := by
  induction l with
  | nil => simp [removeTimeoutFd]
  | cons p rest ih =>
    by_cases hp : p.2 = fd
    · rw [removeTimeoutFd, if_pos hp]
      simp [hp, hne, ih]
    · rw [removeTimeoutFd, if_neg hp]
      simp [ih]

theorem not_mem_map_snd_removeTimeoutFd (l : List (Int × Nat)) (fd : Nat)
    (hnd : (l.map Prod.snd).Nodup) :
    fd ∉ (removeTimeoutFd l fd).map Prod.snd := by
  induction l with
  | nil => simp [removeTimeoutFd]
  | cons p rest ih =>
    rw [List.map_cons, List.nodup_cons] at hnd
    by_cases hp : p.2 = fd
    · rw [removeTimeoutFd, if_pos hp]
      rw [hp] at hnd
      exact hnd.1
    · rw [removeTimeoutFd, if_neg hp]
      intro hmem
      rw [List.map_cons, List.mem_cons] at hmem
      rcases hmem with h | h
      · exact hp h.symm
      · exact ih hnd.2 h

/-- A registration-interface operation on the reactor: `register` a
dispatcher with descriptor `fd` whose predicates answer `d`, or
`unregister` the dispatcher with descriptor `fd`. -/
inductive Op where
  | reg : Nat → Disp → Op
  | unreg : Nat → Op

/-- Apply one `Op`, keeping the state it leaves behind (the returned
outcome is dropped). -/
def applyOp (s : RState) : Op → RState
  | Op.reg fd d => (register s fd d).2
  | Op.unreg fd => (unregister s fd).2

/-- Apply a sequence of register/unregister operations in order. -/
def applyOps (s : RState) (ops : List Op) : RState := ops.foldl applyOp s

/-- The state of a freshly constructed `AsyncEvent`: all four collections
empty, nothing watched. -/
def initState (rb : Bool) : RState :=
  { dispatchers := [], monitoredEvents := [], fdsWithTimeout := [],
    timeEvents := [], pollster := [], raiseExceptions := rb }

/-- The mutual-consistency invariant of the reactor collections (spec §3):
`dispatchers` and `monitored_flags` have exactly the same fds, each exactly
once; an fd has a `_fds_with_timeout` entry iff its dispatcher's timeout
predicate last answered a truthy (non-zero, non-`None`) instant; and
`_fds_with_timeout` holds at most one entry per fd. -/
structure Consistent (s : RState) : Prop where
  domEq : ∀ fd, (dictGet s.dispatchers fd).isSome ↔ (dictGet s.monitoredEvents fd).isSome
  dispNodup : (keysOf s.dispatchers).Nodup
  monNodup : (keysOf s.monitoredEvents).Nodup
  tmoNodup : (s.fdsWithTimeout.map Prod.snd).Nodup
  tmoIff : ∀ fd d, dictGet s.dispatchers fd = some d →
    (fd ∈ s.fdsWithTimeout.map Prod.snd ↔ truthy d.timeout = true)
  tmoReg : ∀ e ∈ s.fdsWithTimeout, (dictGet s.dispatchers e.2).isSome

theorem register_preserves_consistent (s : RState) (fd : Nat) (d : Disp)
    (hs : Consistent s) : Consistent (register s fd d).2 := by
  cases hreg : dictGet s.dispatchers fd with
  | some d0 =>
    have : (register s fd d).2 = s := by
      unfold register
      rw [hreg]
      by_cases hr : s.raiseExceptions <;> simp [hr]
    rw [this]
    exact hs
  | none =>
    have hmon : dictGet s.monitoredEvents fd = none := by
      cases hm : dictGet s.monitoredEvents fd with
      | none => rfl
      | some w =>
        exfalso
        have := (hs.domEq fd).mpr (by rw [hm]; rfl)
        rw [hreg] at this
        simp at this
    have hfdnotin : fd ∉ s.fdsWithTimeout.map Prod.snd := by
      intro hin
      obtain ⟨e, he, hesnd⟩ := List.mem_map.mp hin
      have := hs.tmoReg e he
      rw [hesnd, hreg] at this
      simp at this
    have hkeys : fd ∉ keysOf s.dispatchers := by
      intro hin
      obtain ⟨e, he, hefst⟩ := List.mem_map.mp hin
      rw [dictGet_eq_none_iff] at hreg
      exact hreg e he hefst
    have hkeysm : fd ∉ keysOf s.monitoredEvents := by
      intro hin
      obtain ⟨e, he, hefst⟩ := List.mem_map.mp hin
      rw [dictGet_eq_none_iff] at hmon
      exact hmon e he hefst
    have hdisp2 : (register s fd d).2.dispatchers = s.dispatchers ++ [(fd, d)] := by
      unfold register
      rw [hreg]
      by_cases ht : truthy d.timeout <;>
        simp [ht, dictSet_fresh s.dispatchers fd d hreg]
    have hmon2 : (register s fd d).2.monitoredEvents
        = s.monitoredEvents ++ [(fd, interestMask d)] := by
      unfold register
      rw [hreg]
      by_cases ht : truthy d.timeout <;>
        simp [ht, dictSet_fresh s.monitoredEvents fd (interestMask d) hmon]
    have htmo2 : (register s fd d).2.fdsWithTimeout
        = if truthy d.timeout then s.fdsWithTimeout ++ [(d.timeout.getD 0, fd)]
          else s.fdsWithTimeout := by
      unfold register
      rw [hreg]
      by_cases ht : truthy d.timeout <;> simp [ht]
    have hgetDisp : ∀ fd', dictGet (register s fd d).2.dispatchers fd'
        = if fd' = fd then some d else dictGet s.dispatchers fd' := by
      intro fd'
      rw [hdisp2]
      by_cases h' : fd' = fd
      · subst h'
        rw [if_pos rfl]
        exact dictGet_append_single_self s.dispatchers fd' d hreg
      · rw [if_neg h']
        exact dictGet_append_single_ne s.dispatchers fd fd' d h'
    have hgetMon : ∀ fd', dictGet (register s fd d).2.monitoredEvents fd'
        = if fd' = fd then some (interestMask d) else dictGet s.monitoredEvents fd' := by
      intro fd'
      rw [hmon2]
      by_cases h' : fd' = fd
      · subst h'
        rw [if_pos rfl]
        exact dictGet_append_single_self s.monitoredEvents fd' (interestMask d) hmon
      · rw [if_neg h']
        exact dictGet_append_single_ne s.monitoredEvents fd fd' (interestMask d) h'
    have hmemTmo : ∀ fd', fd' ∈ (register s fd d).2.fdsWithTimeout.map Prod.snd ↔
        (fd' ∈ s.fdsWithTimeout.map Prod.snd ∨ (fd' = fd ∧ truthy d.timeout = true)) := by
      intro fd'
      rw [htmo2]
      by_cases ht : truthy d.timeout <;> simp [ht]
    constructor
    · intro fd'
      rw [hgetDisp fd', hgetMon fd']
      by_cases h' : fd' = fd
      · simp [h']
      · simp only [if_neg h']
        exact hs.domEq fd'
    · rw [hdisp2]
      simp only [keysOf, List.map_append, List.map_cons, List.map_nil]
      exact nodup_append_singleton _ fd hs.dispNodup hkeys
    · rw [hmon2]
      simp only [keysOf, List.map_append, List.map_cons, List.map_nil]
      exact nodup_append_singleton _ fd hs.monNodup hkeysm
    · rw [htmo2]
      by_cases ht : truthy d.timeout
      · rw [if_pos ht]
        simp only [List.map_append, List.map_cons, List.map_nil]
        exact nodup_append_singleton _ fd hs.tmoNodup hfdnotin
      · rw [if_neg ht]
        exact hs.tmoNodup
    · intro fd' d' hfd'
      rw [hgetDisp fd'] at hfd'
      rw [hmemTmo fd']
      by_cases h' : fd' = fd
      · rw [if_pos h'] at hfd'
        have hd' : d' = d := (Option.some_inj.mp hfd').symm
        subst hd'
        subst h'
        constructor
        · intro hin
          rcases hin with hin | hin
          · exact absurd hin hfdnotin
          · exact hin.2
        · intro ht
          exact Or.inr ⟨rfl, ht⟩
      · rw [if_neg h'] at hfd'
        rw [hs.tmoIff fd' d' hfd']
        constructor
        · intro hin
          rcases hin with hin | hin
          · exact hin
          · exact absurd hin.1 h'
        · exact fun ht => Or.inl ht
    · intro e he
      rw [htmo2] at he
      rw [hgetDisp e.2]
      by_cases h' : e.2 = fd
      · simp [h']
      · rw [if_neg h']
        by_cases ht : truthy d.timeout
        · rw [if_pos ht, List.mem_append] at he
          rcases he with he | he
          · exact hs.tmoReg e he
          · simp only [List.mem_singleton] at he
            exact absurd (by rw [he]) h'
        · rw [if_neg ht] at he
          exact hs.tmoReg e he

theorem unregister_preserves_consistent (s : RState) (fd : Nat)
    (hs : Consistent s) : Consistent (unregister s fd).2 := by
  cases hreg : dictGet s.dispatchers fd with
  | none =>
    have : (unregister s fd).2 = s := by
      unfold unregister
      rw [hreg]
      by_cases hr : s.raiseExceptions <;> simp [hr]
    rw [this]
    exact hs
  | some d0 =>
    have hd2 : (unregister s fd).2.dispatchers = dictRemove s.dispatchers fd := by
      unfold unregister
      rw [hreg]
    have hm2 : (unregister s fd).2.monitoredEvents = dictRemove s.monitoredEvents fd := by
      unfold unregister
      rw [hreg]
    have ht2 : (unregister s fd).2.fdsWithTimeout = removeTimeoutFd s.fdsWithTimeout fd := by
      unfold unregister
      rw [hreg]
    have hgetDisp : ∀ fd', dictGet (unregister s fd).2.dispatchers fd'
        = if fd' = fd then none else dictGet s.dispatchers fd' := by
      intro fd'
      rw [hd2]
      by_cases h' : fd' = fd
      · subst h'
        rw [if_pos rfl]
        exact dictGet_dictRemove_self s.dispatchers fd' hs.dispNodup
      · rw [if_neg h']
        exact dictGet_dictRemove_ne s.dispatchers fd fd' h'
    have hgetMon : ∀ fd', dictGet (unregister s fd).2.monitoredEvents fd'
        = if fd' = fd then none else dictGet s.monitoredEvents fd' := by
      intro fd'
      rw [hm2]
      by_cases h' : fd' = fd
      · subst h'
        rw [if_pos rfl]
        exact dictGet_dictRemove_self s.monitoredEvents fd' hs.monNodup
      · rw [if_neg h']
        exact dictGet_dictRemove_ne s.monitoredEvents fd fd' h'
    constructor
    · intro fd'
      rw [hgetDisp fd', hgetMon fd']
      by_cases h' : fd' = fd
      · simp [h']
      · simp only [if_neg h']
        exact hs.domEq fd'
    · rw [hd2]
      exact hs.dispNodup.sublist (keysOf_dictRemove_sublist s.dispatchers fd)
    · rw [hm2]
      exact hs.monNodup.sublist (keysOf_dictRemove_sublist s.monitoredEvents fd)
    · rw [ht2]
      exact hs.tmoNodup.sublist ((removeTimeoutFd_sublist s.fdsWithTimeout fd).map Prod.snd)
    · intro fd' d' hfd'
      rw [hgetDisp fd'] at hfd'
      by_cases h' : fd' = fd
      · rw [if_pos h'] at hfd'
        exact Option.noConfusion hfd'
      · rw [if_neg h'] at hfd'
        rw [ht2, mem_map_snd_removeTimeoutFd_ne s.fdsWithTimeout fd fd' h']
        exact hs.tmoIff fd' d' hfd'
    · intro e he
      rw [ht2] at he
      have hmem : e ∈ s.fdsWithTimeout := (removeTimeoutFd_sublist _ fd).mem he
      have hne : e.2 ≠ fd := by
        intro heq
        have hmm : e.2 ∈ (removeTimeoutFd s.fdsWithTimeout fd).map Prod.snd :=
          List.mem_map_of_mem Prod.snd he
        rw [heq] at hmm
        exact not_mem_map_snd_removeTimeoutFd s.fdsWithTimeout fd hs.tmoNodup hmm
      rw [hgetDisp e.2, if_neg hne]
      exact hs.tmoReg e hmem

theorem consistent_initState (rb : Bool) : Consistent (initState rb) := by
  constructor
  · intro fd
    simp [initState, dictGet]
  · simp [initState, keysOf]
  · simp [initState, keysOf]
  · simp [initState]
  · intro fd d h
    simp [initState, dictGet] at h
  · intro e he
    simp [initState] at he

theorem consistent_applyOps (ops : List Op) :
    ∀ s : RState, Consistent s → Consistent (applyOps s ops) := by
  induction ops with
  | nil => exact fun s hs => hs
  | cons op rest ih =>
    intro s hs
    show Consistent (applyOps (applyOp s op) rest)
    cases op with
    | reg fd d => exact ih _ (register_preserves_consistent s fd d hs)
    | unreg fd => exact ih _ (unregister_preserves_consistent s fd hs)

/-- C4: for every sequence of register and unregister operations applied to
a fresh reactor, the four collections stay mutually consistent after each
operation: every fd in the dispatcher registry has exactly one entry in the
monitored-flags map (and vice versa), an fd appears in the fd-timeouts list
iff its dispatcher's timeout predicate last returned a non-zero instant,
and the fd-timeouts list holds at most one entry per fd.  Because `ops`
ranges over all sequences, this covers the state after every prefix. -/
theorem register_unregister_keeps_consistent (rb : Bool) (ops : List Op) :
    Consistent (applyOps (initState rb) ops) :=
  consistent_applyOps ops (initState rb) (consistent_initState rb)

/-- C5: registering a dispatcher whose descriptor is already registered
fails — raising `IOError(EEXIST)` in raise mode, returning `False`
otherwise — and in both modes returns the reactor state completely
unchanged (all four collections and the multiplexer's watched set). -/
theorem register_duplicate_fails (s : RState) (fd : Nat) (d : Disp)
    (h : (dictGet s.dispatchers fd).isSome) :
    register s fd d =
      ((if s.raiseExceptions then Outcome.raised EEXIST else Outcome.returnedFalse), s) := by
  obtain ⟨d0, hd0⟩ := Option.isSome_iff_exists.mp h
  unfold register
  rw [hd0]
  by_cases hr : s.raiseExceptions <;> simp [hr]

/-- Witness for C5: a concrete raise-mode reactor with fd 3 registered. -/
theorem register_duplicate_fails_witness :
    register
        { dispatchers := [(3, ⟨true, true, none⟩)], monitoredEvents := [(3, 7)],
          fdsWithTimeout := [], timeEvents := [], pollster := [(3, 7)],
          raiseExceptions := true }
        3 ⟨false, true, some 5⟩ =
      ((if ({ dispatchers := [(3, ⟨true, true, none⟩)], monitoredEvents := [(3, 7)],
              fdsWithTimeout := [], timeEvents := [], pollster := [(3, 7)],
              raiseExceptions := true } : RState).raiseExceptions then
          Outcome.raised EEXIST
        else Outcome.returnedFalse),
        { dispatchers := [(3, ⟨true, true, none⟩)], monitoredEvents := [(3, 7)],
          fdsWithTimeout := [], timeEvents := [], pollster := [(3, 7)],
          raiseExceptions := true }) :=
  register_duplicate_fails _ 3 ⟨false, true, some 5⟩ (by decide)

/-- C6: while a TCP client dispatcher is not connected its interest queries
ignore the user `readable()`/`writable()`/`timeout()` overrides and answer
`want_read = false`, `want_write = true` and the recorded connect deadline
(`none` when no connect timeout was given); once connected all three defer
to the user overrides. -/
theorem tcpClient_connecting_interest :
    (∀ c : TcpClientState, c.connected = false →
      c.monitorReadable = false ∧ c.monitorWritable = true ∧
        c.monitorTimeout = c.connectTimeoutAt) ∧
    (∀ c : TcpClientState, c.connected = true →
      c.monitorReadable = c.userReadable ∧ c.monitorWritable = c.userWritable ∧
        c.monitorTimeout = c.userTimeout) := by
  constructor <;> intro c hc <;>
    simp [TcpClientState.monitorReadable, TcpClientState.monitorWritable,
      TcpClientState.monitorTimeout, hc]

/-- Witness for C6: a connecting client with overrides `readable = true`,
`writable = false` still reports `(false, true, deadline)`, and a connected
one reports the overrides. -/
theorem tcpClient_connecting_interest_witness :
    TcpClientState.monitorReadable ⟨false, some 42, none, true, false, some 9⟩ = false ∧
    TcpClientState.monitorWritable ⟨false, some 42, none, true, false, some 9⟩ = true ∧
    TcpClientState.monitorTimeout ⟨false, some 42, none, true, false, some 9⟩ = some 42 ∧
    TcpClientState.monitorReadable ⟨true, some 42, some 8, true, false, some 9⟩ = true ∧
    TcpClientState.monitorWritable ⟨true, some 42, some 8, true, false, some 9⟩ = false ∧
    TcpClientState.monitorTimeout ⟨true, some 42, some 8, true, false, some 9⟩ = some 9 :=
  ⟨(tcpClient_connecting_interest.1 _ rfl).1,
    (tcpClient_connecting_interest.1 _ rfl).2.1,
    (tcpClient_connecting_interest.1 _ rfl).2.2,
    (tcpClient_connecting_interest.2 _ rfl).1,
    (tcpClient_connecting_interest.2 _ rfl).2.1,
    (tcpClient_connecting_interest.2 _ rfl).2.2⟩

/-- C7: a write event on a not-yet-connected TCP client reads the pending
`SO_ERROR`: nonzero raises `socket.error` with that code before any state
change (the dispatcher does not become connected); zero transitions to
connected, records the local address (`getsockname()`), and does not invoke
the user's `handle_write`; once connected every write event invokes the
user's `handle_write`. -/
theorem tcpClient_write_event (c : TcpClientState) (soError : Int) (sockName : Nat) :
    (c.connected = false → soError ≠ 0 →
      c.handleWriteEvent soError sockName = Except.error soError) ∧
    (c.connected = false → soError = 0 →
      c.handleWriteEvent soError sockName =
        Except.ok ({ c with connected := true, localAddr := some sockName }, false)) ∧
    (c.connected = true →
      c.handleWriteEvent soError sockName = Except.ok (c, true)) := by
  refine ⟨fun hc he => ?_, fun hc he => ?_, fun hc => ?_⟩
  · simp [TcpClientState.handleWriteEvent, hc, he]
  · simp [TcpClientState.handleWriteEvent, hc, he]
  · simp [TcpClientState.handleWriteEvent, hc]

/-- Witness for C7: concrete connecting clients with pending error 111 and
0, and a connected client. -/
theorem tcpClient_write_event_witness :
    TcpClientState.handleWriteEvent ⟨false, none, none, true, true, none⟩ 111 5 =
      Except.error 111 ∧
    TcpClientState.handleWriteEvent ⟨false, none, none, true, true, none⟩ 0 5 =
      Except.ok (⟨true, none, some 5, true, true, none⟩, false) ∧
    TcpClientState.handleWriteEvent ⟨true, none, some 5, true, true, none⟩ 0 5 =
      Except.ok (⟨true, none, some 5, true, true, none⟩, true) :=
  ⟨(tcpClient_write_event _ 111 5).1 rfl (by decide),
    (tcpClient_write_event _ 0 5).2.1 rfl rfl,
    (tcpClient_write_event _ 0 5).2.2 rfl⟩

/-- C8 (evaluation at the failing input): an accept failing with
non-transient errno 24 (`EMFILE`) makes the wrapped `accept()` raise
`NameError` — the undefined name `e` in its `log_warning` call — instead of
re-raising the socket error, and `handle_read` propagates that exception;
the transient errnos `EWOULDBLOCK`/`EAGAIN` (11) and `ECONNABORTED` (103)
yield no new client without raising, and a successful accept hands the
connected socket and peer address to `prepare_serving_client`. -/
theorem tcpServer_accept_eval :
    tcpServerAccept (RawAccept.sockErr 24) = AcceptOutcome.raisedNameError ∧
    tcpServerHandleRead (RawAccept.sockErr 24) = Except.error () ∧
    tcpServerAccept (RawAccept.sockErr EWOULDBLOCK) = AcceptOutcome.noClient ∧
    tcpServerAccept (RawAccept.sockErr ECONNABORTED) = AcceptOutcome.noClient ∧
    tcpServerHandleRead (RawAccept.sockErr EAGAIN) = Except.ok none ∧
    tcpServerHandleRead (RawAccept.conn 5 77) = Except.ok (some (5, 77)) := by
  refine ⟨rfl, rfl, rfl, rfl, rfl, rfl⟩

/-- C10: a timeout or schedule instant of exactly 0 is treated like `None`:
a dispatcher whose `monitor_timeout()` answers 0 (or `None`) gets no
fd-timeouts entry at registration nor at the post-event refresh, and
`add_scheduled_job` returns `False` without adding when `schedule()`
answers 0 or `None`; any non-zero instant — including one already in the
past — is accepted and inserted with success returned. -/
theorem zero_instant_treated_as_none :
    (∀ (s : RState) (fd : Nat) (d : Disp), dictGet s.dispatchers fd = none →
      (d.timeout = none ∨ d.timeout = some 0) →
      (register s fd d).1 = Outcome.ok ∧
        (register s fd d).2.fdsWithTimeout = s.fdsWithTimeout) ∧
    (∀ (s : RState) (fd : Nat) (d : Disp) (t : Int), dictGet s.dispatchers fd = none →
      d.timeout = some t → t ≠ 0 →
      (register s fd d).1 = Outcome.ok ∧
        (register s fd d).2.fdsWithTimeout = s.fdsWithTimeout ++ [(t, fd)]) ∧
    (∀ (s : RState) (j : Job), (j.schedule = none ∨ j.schedule = some 0) →
      addScheduledJob s j = (false, s)) ∧
    (∀ (s : RState) (j : Job) (t : Int), j.schedule = some t → t ≠ 0 →
      addScheduledJob s j =
        (true, { s with timeEvents := s.timeEvents ++ [(t, j)] })) ∧
    (∀ (s : RState) (fd : Nat) (d : Disp) (s2 : RState) (calls : List (Nat × Nat)),
      dictGet s.dispatchers fd = some d →
      (d.timeout = none ∨ d.timeout = some 0) →
      updateAssociatedEvents s fd = some (s2, calls) →
      s2.fdsWithTimeout = removeTimeoutFd s.fdsWithTimeout fd) := by
  refine ⟨?_, ?_, ?_, ?_, ?_⟩
  · intro s fd d hfd hdt
    have ht : truthy d.timeout = false := by
      rcases hdt with h | h <;> simp [h, truthy]
    rw [register, hfd]
    simp [ht]
  · intro s fd d t hfd hdt hne
    have ht : truthy (some t) = true := by simp [truthy, hne]
    rw [register, hfd]
    simp [hdt, ht]
  · intro s j hj
    have ht : truthy j.schedule = false := by
      rcases hj with h | h <;> simp [h, truthy]
    simp [addScheduledJob, ht]
  · intro s j t hj hne
    have ht : truthy (some t) = true := by simp [truthy, hne]
    simp [addScheduledJob, hj, ht]
  · intro s fd d s2 calls hd hdt hupd
    have ht : truthy d.timeout = false := by
      rcases hdt with h | h <;> simp [h, truthy]
    simp only [updateAssociatedEvents, hd, ht, Bool.false_eq_true, if_false] at hupd
    split at hupd
    · exact Option.noConfusion hupd
    · split at hupd
      · exact Option.noConfusion hupd
      · rename_i s2a callsA heqif
        injection hupd with hpair
        injection hpair with h1 h2
        subst h1
        subst h2
        split at heqif
        · split at heqif
          · exact Option.noConfusion heqif
          · injection heqif with hpair2
            injection hpair2 with h3 h4
            rw [← h3]
        · injection heqif with hpair2
          injection hpair2 with h3 h4
          rw [← h3]

/-- Witness for C10: concrete instances of all five parts — registering with
timeout 0 adds no timer entry, a past instant (-3) is accepted, a job with
schedule 0 is refused, one with past instant (-2) is added, and the
post-event refresh adds no entry for a timeout-0 dispatcher. -/
theorem zero_instant_treated_as_none_witness :
    ((register ⟨[], [], [], [], [], true⟩ 4 ⟨true, true, some 0⟩).1 = Outcome.ok ∧
      (register ⟨[], [], [], [], [], true⟩ 4 ⟨true, true, some 0⟩).2.fdsWithTimeout =
        (⟨[], [], [], [], [], true⟩ : RState).fdsWithTimeout) ∧
    ((register ⟨[], [], [], [], [], true⟩ 4 ⟨true, true, some (-3)⟩).1 = Outcome.ok ∧
      (register ⟨[], [], [], [], [], true⟩ 4 ⟨true, true, some (-3)⟩).2.fdsWithTimeout =
        (⟨[], [], [], [], [], true⟩ : RState).fdsWithTimeout ++ [(-3, 4)]) ∧
    addScheduledJob ⟨[], [], [], [], [], true⟩ ⟨1, some 0⟩ =
      (false, ⟨[], [], [], [], [], true⟩) ∧
    addScheduledJob ⟨[], [], [], [], [], true⟩ ⟨1, some (-2)⟩ =
      (true, { (⟨[], [], [], [], [], true⟩ : RState) with
          timeEvents :=
            (⟨[], [], [], [], [], true⟩ : RState).timeEvents ++ [(-2, ⟨1, some (-2)⟩)] }) ∧
    (⟨[(3, ⟨true, true, some 0⟩)], [(3, 7)], [], [], [(3, 7)], true⟩ : RState).fdsWithTimeout =
      removeTimeoutFd
        (⟨[(3, ⟨true, true, some 0⟩)], [(3, 7)], [(5, 3)], [], [(3, 7)], true⟩ :
          RState).fdsWithTimeout 3 :=
  ⟨zero_instant_treated_as_none.1 _ 4 _ rfl (Or.inr rfl),
    zero_instant_treated_as_none.2.1 _ 4 _ (-3) rfl rfl (by decide),
    zero_instant_treated_as_none.2.2.1 _ _ (Or.inr rfl),
    zero_instant_treated_as_none.2.2.2.1 _ _ (-2) rfl (by decide),
    zero_instant_treated_as_none.2.2.2.2 _ 3 _ _ [] rfl (Or.inr rfl) rfl⟩

/-- C2 (evaluation at the failing input): both pure-timeout loops delete
index 0 of the list they are iterating, so the iterator cursor skips every
other elapsed entry.  With two elapsed fd-timeout entries `(1, 7)` and
`(2, 8)` at time 10 (both elapsed), only fd 7 fires and `(2, 8)` is left
queued, and with two elapsed jobs only the first fires — the claim says all
elapsed entries fire in this wake-up. -/
theorem timeout_loop_skips_second_elapsed :
    timeoutPhase (fun _ s => s) 10 5
      { dispatchers := [(7, ⟨true, true, none⟩), (8, ⟨true, true, none⟩)],
        monitoredEvents := [(7, 7), (8, 7)],
        fdsWithTimeout := [(1, 7), (2, 8)],
        timeEvents := [],
        pollster := [(7, 7), (8, 7)],
        raiseExceptions := true } =
      some
        ({ dispatchers := [(7, ⟨true, true, none⟩), (8, ⟨true, true, none⟩)],
           monitoredEvents := [(7, 7), (8, 7)],
           fdsWithTimeout := [(2, 8)],
           timeEvents := [],
           pollster := [(7, 7), (8, 7)],
           raiseExceptions := true }, [7]) ∧
    jobsPhase 10 5 [(1, ⟨1, none⟩), (2, ⟨2, none⟩)] =
      some ([(2, ⟨2, none⟩)], [⟨1, none⟩]) :=
  ⟨rfl, rfl⟩

/-- C9: for a still-registered dispatcher the post-event refresh re-derives
the interest mask from the current predicates and issues exactly one
`modify(fd, mask)` call when the derived mask differs from the recorded
one, and none when it is unchanged; afterwards the recorded monitored-flags
entry again equals the mask the multiplexer holds (given it did before),
and both equal the freshly derived mask. -/
theorem update_modify_iff_mask_changed (s : RState) (fd : Nat) (d : Disp) (recFlags : Nat)
    (hd : dictGet s.dispatchers fd = some d)
    (hm : dictGet s.monitoredEvents fd = some recFlags)
    (hp : dictGet s.pollster fd = some recFlags) :
    ∃ s2, updateAssociatedEvents s fd =
        some (s2, if recFlags = interestMask d then [] else [(fd, interestMask d)]) ∧
      dictGet s2.monitoredEvents fd = some (interestMask d) ∧
      dictGet s2.pollster fd = some (interestMask d) := by
  by_cases hmask : recFlags = interestMask d
  · refine ⟨if truthy d.timeout then
        { s with fdsWithTimeout :=
            removeTimeoutFd s.fdsWithTimeout fd ++ [(d.timeout.getD 0, fd)] }
      else { s with fdsWithTimeout := removeTimeoutFd s.fdsWithTimeout fd }, ?_, ?_, ?_⟩
    · rw [if_pos hmask]
      simp only [updateAssociatedEvents, hd, hm]
      rw [if_neg (by simp [hmask])]
      by_cases ht : truthy d.timeout <;> simp [ht]
    · rw [← hmask, ← hm]
      by_cases ht : truthy d.timeout <;> simp [ht]
    · rw [← hmask, ← hp]
      by_cases ht : truthy d.timeout <;> simp [ht]
  · have hpm : pollsterModify s.pollster fd (interestMask d) =
        some (dictSet s.pollster fd (interestMask d)) := by
      rw [pollsterModify, if_pos (by rw [hp]; rfl)]
    refine ⟨if truthy d.timeout then
        { s with
            fdsWithTimeout :=
              removeTimeoutFd s.fdsWithTimeout fd ++ [(d.timeout.getD 0, fd)],
            monitoredEvents := dictSet s.monitoredEvents fd (interestMask d),
            pollster := dictSet s.pollster fd (interestMask d) }
      else
        { s with
            fdsWithTimeout := removeTimeoutFd s.fdsWithTimeout fd,
            monitoredEvents := dictSet s.monitoredEvents fd (interestMask d),
            pollster := dictSet s.pollster fd (interestMask d) }, ?_, ?_, ?_⟩
    · rw [if_neg hmask]
      simp only [updateAssociatedEvents, hd, hm]
      rw [if_pos (by simp [hmask]), hpm]
      by_cases ht : truthy d.timeout <;> simp [ht]
    · by_cases ht : truthy d.timeout <;>
        simp [ht, dictGet_dictSet_self]
    · by_cases ht : truthy d.timeout <;>
        simp [ht, dictGet_dictSet_self]

/-- Witness for C9: a reactor watching fd 3 with recorded mask 7 whose
dispatcher now wants only reads (derived mask 3) issues exactly one modify
call and re-synchronises both records. -/
theorem update_modify_iff_mask_changed_witness :
    ∃ s2, updateAssociatedEvents
        ⟨[(3, ⟨true, false, none⟩)], [(3, 7)], [], [], [(3, 7)], true⟩ 3 =
        some (s2, if 7 = interestMask ⟨true, false, none⟩ then []
          else [(3, interestMask ⟨true, false, none⟩)]) ∧
      dictGet s2.monitoredEvents 3 = some (interestMask ⟨true, false, none⟩) ∧
      dictGet s2.pollster 3 = some (interestMask ⟨true, false, none⟩) :=
  update_modify_iff_mask_changed _ 3 _ 7 rfl rfl rfl

theorem pySorted_head_minFst {α : Type} (l : List (Int × α)) :
    (pySorted l).head?.map Prod.fst = minFst l := by
  induction l with
  | nil => rfl
  | cons p xs ih =>
    show (insSorted p (pySorted xs)).head?.map Prod.fst = minFst (p :: xs)
    cases hs : pySorted xs with
    | nil =>
      rw [hs] at ih
      have hmx : minFst xs = none := by simpa using ih.symm
      simp [minFst, hmx, insSorted]
    | cons q rest =>
      rw [hs] at ih
      have hmx : minFst xs = some q.1 := by simpa using ih.symm
      by_cases hq : q.1 < p.1
      · simp [minFst, hmx, insSorted, hq, min_eq_right (le_of_lt hq)]
      · simp [minFst, hmx, insSorted, hq, min_eq_left (le_of_not_lt hq)]

theorem nearest_eq_spec (fdsT : List (Int × Nat)) (jobs : List (Int × Job)) (now : Int) :
    nearestTimeout fdsT jobs now = specNearest fdsT jobs now := by
  unfold nearestTimeout specNearest
  cases hf : pySorted fdsT with
  | nil =>
    have hmf : minFst fdsT = none := by
      have h0 := pySorted_head_minFst fdsT
      rw [hf] at h0
      simpa using h0.symm
    rw [hmf]
    cases hj : pySorted jobs with
    | nil =>
      have hmj : minFst jobs = none := by
        have h0 := pySorted_head_minFst jobs
        rw [hj] at h0
        simpa using h0.symm
      rw [hmj]
    | cons q rest =>
      have hmj : minFst jobs = some q.1 := by
        have h0 := pySorted_head_minFst jobs
        rw [hj] at h0
        simpa using h0.symm
      rw [hmj]
      simp only [stepNearest, min_def, max_def]
      split_ifs <;> omega
  | cons p prest =>
    have hmf : minFst fdsT = some p.1 := by
      have h0 := pySorted_head_minFst fdsT
      rw [hf] at h0
      simpa using h0.symm
    rw [hmf]
    cases hj : pySorted jobs with
    | nil =>
      have hmj : minFst jobs = none := by
        have h0 := pySorted_head_minFst jobs
        rw [hj] at h0
        simpa using h0.symm
      rw [hmj]
      simp only [stepNearest, min_def, max_def]
      split_ifs <;> omega
    | cons q rest =>
      have hmj : minFst jobs = some q.1 := by
        have h0 := pySorted_head_minFst jobs
        rw [hj] at h0
        simpa using h0.symm
      rw [hmj]
      simp only [stepNearest, min_def, max_def]
      split_ifs <;> omega

/-- C3: the poll timeout of one loop step equals the minimum over the
earliest fd-timeout instant and earliest job instant relative to now,
clamped to 0 when already due, and -1 (block indefinitely) when no timer
exists; in particular with fd timeouts at instants [5, 2, 8] and job
instants [3, 9] at time 0 the computed nearest wake is 2, and with no
timers it is -1. -/
theorem poll_timeout_is_nearest_min :
    (∀ (fdsT : List (Int × Nat)) (jobs : List (Int × Job)) (now : Int),
      nearestTimeout fdsT jobs now = specNearest fdsT jobs now) ∧
    nearestTimeout [(5, 100), (2, 200), (8, 300)]
      [(3, ⟨1, none⟩), (9, ⟨2, none⟩)] 0 = 2 ∧
    nearestTimeout [] [] 0 = -1 :=
  ⟨nearest_eq_spec, by decide, rfl⟩

theorem processFiredEvents_eq_specDispatch (cb : CB) (fd flags : Nat) (s : RState)
    (h : (dictGet s.dispatchers fd).isSome) :
    processFiredEvents cb fd flags s = some (specDispatchFd cb fd flags s) := by
  rw [processFiredEvents, if_pos h, specDispatchFd]
  simp only [List.foldl, evBit]
  rw [show (EPOLLPRI != EPOLLIN) = true from by decide]
  simp only [Bool.true_and]
  rfl

/-- C1: the ready-pairs branch of the loop refines its specification: for
every batch of ready (fd, mask) pairs that the code processes to
completion, the pairs are handled in the order returned and each fd's set
bits are resolved in the fixed priority order PRI, IN, OUT, HUP-or-ERR,
with registration re-checked immediately before every single callback
invocation (including the first for an fd), so no callback ever runs for an
fd that is not registered at that moment; the final state and the full
invocation trace coincide with the spec-side dispatcher `specBatch`. -/
theorem batch_dispatch_refines_spec (cb : CB) (pairs : List (Nat × Nat)) (s : RState)
    (out : RState × List Invocation)
    (h : processBatch cb pairs s = some out) :
    specBatch cb pairs s = some out := by
  induction pairs generalizing s out with
  | nil => exact h
  | cons pr rest ih =>
    obtain ⟨fd, flags⟩ := pr
    rw [processBatch] at h
    rw [specBatch]
    cases hp : processFiredEvents cb fd flags s with
    | none =>
      rw [hp] at h
      exact Option.noConfusion h
    | some q =>
      have hreg : (dictGet s.dispatchers fd).isSome := by
        by_contra hn
        rw [processFiredEvents, if_neg hn] at hp
        exact Option.noConfusion hp
      have hspec := processFiredEvents_eq_specDispatch cb fd flags s hreg
      rw [hp] at hspec
      have hq : specDispatchFd cb fd flags s = q := Option.some_inj.mp hspec.symm
      rw [hq]
      obtain ⟨s1, tr1⟩ := q
      simp only [hp] at h
      cases hu : updateAssociatedEvents s1 fd with
      | none =>
        rw [hu] at h
        exact Option.noConfusion h
      | some r =>
        obtain ⟨s2, calls⟩ := r
        simp only [hu] at h ⊢
        cases hb : processBatch cb rest s2 with
        | none =>
          simp only [hb] at h
          exact Option.noConfusion h
        | some o2 =>
          obtain ⟨s3, tr3⟩ := o2
          simp only [hb] at h
          simp only [ih s2 (s3, tr3) hb]
          exact h

/-- Witness for C1: a single ready pair (fd 3, IN) on a reactor with fd 3
registered dispatches exactly one read callback on the registered state. -/
theorem batch_dispatch_refines_spec_witness :
    specBatch (fun _ _ st => st) [(3, 1)]
      ⟨[(3, ⟨true, true, none⟩)], [(3, 7)], [], [], [(3, 7)], true⟩ =
      some (⟨[(3, ⟨true, true, none⟩)], [(3, 7)], [], [], [(3, 7)], true⟩,
        [⟨3, EvKind.rd, ⟨[(3, ⟨true, true, none⟩)], [(3, 7)], [], [], [(3, 7)], true⟩⟩]) :=
  batch_dispatch_refines_spec (fun _ _ st => st) [(3, 1)] _ _ rfl

/-- Counterexample for C1: if the read callback of fd 5 unregisters fd 6
while both are in the same ready batch, the code aborts the batch with a
`KeyError` — the entry lookup `self._registered_dispatchers[fd]` in
`__process_fired_events` runs before any registration check — so the pair
for fd 6 is never processed (the claimed graceful re-check would have
skipped fd 6's callbacks and continued, as the spec-side dispatcher does,
still invoking no callback for fd 6). -/
theorem batch_aborts_on_cross_unregister :
    processBatch (fun fd _ st => if fd = 5 then (unregister st 6).2 else st)
      [(5, 1), (6, 1)]
      ⟨[(5, ⟨true, true, none⟩), (6, ⟨true, true, none⟩)], [(5, 7), (6, 7)],
        [], [], [(5, 7), (6, 7)], true⟩ = none ∧
    specBatch (fun fd _ st => if fd = 5 then (unregister st 6).2 else st)
      [(5, 1), (6, 1)]
      ⟨[(5, ⟨true, true, none⟩), (6, ⟨true, true, none⟩)], [(5, 7), (6, 7)],
        [], [], [(5, 7), (6, 7)], true⟩ =
      some (⟨[(5, ⟨true, true, none⟩)], [(5, 7)], [], [], [(5, 7)], true⟩,
        [⟨5, EvKind.rd,
          ⟨[(5, ⟨true, true, none⟩), (6, ⟨true, true, none⟩)], [(5, 7), (6, 7)],
            [], [], [(5, 7), (6, 7)], true⟩⟩]) :=
  ⟨rfl, rfl⟩
